import Mathlib

/-!
Verification of the effort-estimation engine of `github-utils`.

The repository's computational core consists of four pure Python functions:

* `estimate_time_from_commits` (scripts/estimate_pr_time.py) — the
  session-cluster estimator over commit timestamps;
* `calculate_business_hours` and its helpers `is_business_day`,
  `get_business_hours_in_day` (scripts/get_completed_issues_with_time.py) —
  the business-hours calculator;
* the event-scanning / metric-reporting part of `analyze_issue_timing`
  (scripts/get_completed_issues_with_time.py) — the timeline analyzer;
* `estimate_time_from_metadata` (scripts/estimate_pr_time_fallback.py) —
  the metadata fallback estimator.

Modelling conventions:

* Python floats are modelled as exact rationals (`ℚ`); Python's `round(x, n)`
  is modelled as rounding `x * 10^n` to the nearest integer.
* Python `datetime` values (always zone-normalised to the reference zone
  before use) are modelled by `Datetime`: an absolute calendar-day number
  `day : ℤ` together with the seconds elapsed since that day's midnight,
  `sec : ℚ`.  Day numbering is chosen so that `day % 7 = 0` is a Monday,
  matching Python's `weekday()` convention (`Monday = 0 … Sunday = 6`).
* Python `None` becomes `Option.none`.
-/

/-! ### Session-cluster estimator (scripts/estimate_pr_time.py) -/

/-- `MAX_COMMIT_DIFF_MINUTES = 120` in scripts/estimate_pr_time.py. -/
def MAX_COMMIT_DIFF_MINUTES : ℚ := 120

/-- `FIRST_COMMIT_BUFFER_MINUTES = 120` in scripts/estimate_pr_time.py. -/
def FIRST_COMMIT_BUFFER_MINUTES : ℚ := 120

/-- Python's `round(x, 1)` on our rational model of floats. -/
def round1 (q : ℚ) : ℚ := (round (q * 10) : ℤ) / 10

/-- The dictionary returned by `estimate_time_from_commits`. -/
structure EstimateResult where
  estimated_hours : ℚ
  sessions : ℕ
  commits : ℕ
deriving DecidableEq, Repr

/-- The `for i in range(1, len(commits))` loop of `estimate_time_from_commits`:
`prev` is `commits[i-1]`'s timestamp (in seconds), the remaining list holds
`commits[i:]`, and `totalMinutes`/`sessions` are the two accumulators. -/
def commitLoop (prev totalMinutes : ℚ) (sessions : ℕ) : List ℚ → ℚ × ℕ
  | [] => (totalMinutes, sessions)
  | t :: rest =>
    let diff_minutes := (t - prev) / 60
    if diff_minutes ≤ MAX_COMMIT_DIFF_MINUTES then
      commitLoop t (totalMinutes + diff_minutes) sessions rest
    else
      commitLoop t (totalMinutes + FIRST_COMMIT_BUFFER_MINUTES) (sessions + 1) rest

/-- `estimate_time_from_commits` from scripts/estimate_pr_time.py.  A commit
record is consumed only through its timestamp, so the input is the list of
commit timestamps (absolute seconds, as rationals).  The function sorts the
list ascending, charges one startup buffer, then walks consecutive pairs:
a gap of at most two hours is added as-is, a larger gap starts a new session
and charges another buffer. -/
def estimate_time_from_commits (commits : List ℚ) : EstimateResult :=
  if commits.isEmpty then ⟨0, 0, 0⟩ else
  match List.insertionSort (· ≤ ·) commits with
  | [] => ⟨0, 0, 0⟩
  | t0 :: rest =>
    let r := commitLoop t0 FIRST_COMMIT_BUFFER_MINUTES 1 rest
    ⟨round1 (r.1 / 60), r.2, commits.length⟩

/-- The consecutive gaps, in minutes, of a (sorted) timestamp list. -/
def gapsOf (sorted : List ℚ) : List ℚ :=
  List.zipWith (fun a b => (b - a) / 60) sorted sorted.tail

/-- The session-cluster algorithm as the specification states it: sessions are
one plus the number of over-threshold gaps, total minutes are one buffer plus,
per gap, either the gap itself (small gap) or another buffer (large gap). -/
def specSessionEstimate (commits : List ℚ) : EstimateResult :=
  if commits.isEmpty then ⟨0, 0, 0⟩ else
  let sorted := List.insertionSort (· ≤ ·) commits
  let gaps := gapsOf sorted
  let totalMinutes := FIRST_COMMIT_BUFFER_MINUTES +
    (gaps.map (fun g =>
      if g ≤ MAX_COMMIT_DIFF_MINUTES then g else FIRST_COMMIT_BUFFER_MINUTES)).sum
  let sessions := 1 + (gaps.filter (fun g => MAX_COMMIT_DIFF_MINUTES < g)).length
  ⟨round1 (totalMinutes / 60), sessions, commits.length⟩
/-! ### Business-hours calculator (scripts/get_completed_issues_with_time.py) -/

/-- A zone-normalised Python `datetime`: absolute day number plus seconds since
that day's midnight.  `day % 7 = 0` is a Monday (Python's `weekday()` order). -/
structure Datetime where
  day : ℤ
  sec : ℚ
deriving DecidableEq, Repr

/-- Absolute time of a `Datetime`, in seconds; `datetime` comparison and
subtraction in the source are comparison and subtraction of this value. -/
def toSecs (d : Datetime) : ℚ := (d.day : ℚ) * 86400 + d.sec

/-- Python's `weekday()` for a day number: Monday = 0 … Sunday = 6. -/
def weekday (day : ℤ) : ℤ := day % 7

/-- `is_business_day`: `dt.weekday() < 5` (Mon–Fri). -/
def is_business_day (dt : Datetime) : Bool := weekday dt.day < 5

/-- Python's `dt.hour` component. -/
def hourOf (dt : Datetime) : ℤ := ⌊dt.sec / 3600⌋

/-- `get_business_hours_in_day`: the 7am–7pm window of `dt`'s day, as absolute
seconds, with the end pushed to `23:59:59.999999` when `dt.hour >= 19`. -/
def get_business_hours_in_day (dt : Datetime) : ℚ × ℚ :=
  let start := (dt.day : ℚ) * 86400 + 7 * 3600
  let «end» := if hourOf dt ≥ 19 then
      (dt.day : ℚ) * 86400 + (86399 + 999999 / 1000000)
    else
      (dt.day : ℚ) * 86400 + 19 * 3600
  (start, «end»)

/-- The body of `calculate_business_hours`'s `while` loop: the hours the day of
`cur` contributes, where `cur` is the loop's `current_dt` (equal to `start_dt`
on the first day and to the day's midnight afterwards). -/
def dayHours (s e cur : Datetime) : ℚ :=
  if is_business_day cur then
    let biz := get_business_hours_in_day cur
    let day_start := if cur.day = s.day then max (toSecs cur) biz.1 else biz.1
    let day_end := if cur.day = e.day then min (toSecs e) biz.2 else biz.2
    if day_start < day_end then (day_end - day_start) / 3600 else 0
  else
    if cur.day = s.day ∨ cur.day = e.day then 4 else 0

/-- The `while current_dt.date() <= end_dt.date()` loop, with the iteration
count made explicit: each step contributes `dayHours` and advances `current_dt`
to the next day's midnight. -/
def calcLoop (s e : Datetime) : ℕ → Datetime → ℚ
  | 0, _ => 0
  | n + 1, cur => dayHours s e cur + calcLoop s e n ⟨cur.day + 1, 0⟩

/-- `calculate_business_hours` from scripts/get_completed_issues_with_time.py:
missing input yields `0.0`; the arguments are swapped into ascending order; the
loop runs once per calendar day from `start.date()` to `end.date()`. -/
def calculate_business_hours : Option Datetime → Option Datetime → ℚ
  | some s0, some e0 =>
    let p := if toSecs s0 > toSecs e0 then (e0, s0) else (s0, e0)
    calcLoop p.1 p.2 (p.2.day - p.1.day + 1).toNat p.1
  | _, _ => 0

/-- The contribution of calendar day `d` inside one `calculate_business_hours`
run: the loop visits day `d` with `current_dt = s` when `d` is the first day
and `current_dt = ⟨d, 0⟩` (midnight) otherwise. -/
def dayContribution (s e : Datetime) (d : ℤ) : ℚ :=
  dayHours s e (if d = s.day then s else ⟨d, 0⟩)

/-- The per-business-day window contribution as claim C2 words it: the window
`[7:00, 19:00)` of day `d`, whose end extends to `23:59:59.999999` whenever the
boundary instant under consideration for that day (`start` on the first day,
`end` on the last day) falls at or after 19:00; clamped below by `start` on the
first day and above by `end` on the last day; counting the positive duration. -/
def claimC2Window (s e : Datetime) (d : ℤ) : ℚ :=
  let winStart := (d : ℚ) * 86400 + 7 * 3600
  let ext := (d = s.day ∧ hourOf s ≥ 19) ∨ (d = e.day ∧ hourOf e ≥ 19)
  let winEnd := if ext then (d : ℚ) * 86400 + (86399 + 999999 / 1000000)
    else (d : ℚ) * 86400 + 19 * 3600
  let day_start := if d = s.day then max (toSecs s) winStart else winStart
  let day_end := if d = e.day then min (toSecs e) winEnd else winEnd
  if day_start < day_end then (day_end - day_start) / 3600 else 0

/-- The per-business-day window contribution the code actually implements: the
extension to `23:59:59.999999` can only trigger on the first day (where the
loop variable is `start` itself; on every later day it is midnight, whose hour
is 0), so only `start.hour ≥ 19` ever extends a window. -/
def amendedBusinessWindow (s e : Datetime) (d : ℤ) : ℚ :=
  let winStart := (d : ℚ) * 86400 + 7 * 3600
  let winEnd := if d = s.day ∧ hourOf s ≥ 19 then (d : ℚ) * 86400 + (86399 + 999999 / 1000000)
    else (d : ℚ) * 86400 + 19 * 3600
  let day_start := if d = s.day then max (toSecs s) winStart else winStart
  let day_end := if d = e.day then min (toSecs e) winEnd else winEnd
  if day_start < day_end then (day_end - day_start) / 3600 else 0

/-! ### Timeline analyzer (scripts/get_completed_issues_with_time.py) -/

/-- One timeline/issue event as `analyze_issue_timing` consumes it:
`eventType` is `event.get('event', event.get('type'))`, `actorLogin` is
`event.get('actor', {}).get('login')`, and `createdAt` is the parsed
`event['created_at']` (possibly missing). -/
structure TimelineEvent where
  eventType : String
  actorLogin : String
  createdAt : Option Datetime
deriving DecidableEq

/-- The three anchors accumulated by `analyze_issue_timing`'s event loop. -/
structure EventScan where
  first_response : Option Datetime
  assigned_at : Option Datetime
  labeled_at : Option Datetime
deriving DecidableEq

/-- One pass of the `for event in all_events` loop body: the first
non-author comment fixes `first_response`, the first `assigned` event fixes
`assigned_at`, the first `labeled` event fixes `labeled_at` (a Python `None`
anchor is falsy, so `not first_response` means `first_response is None`). -/
def scanStep (authorLogin : String) (st : EventScan) (ev : TimelineEvent) : EventScan :=
  let st1 :=
    if (ev.eventType = "commented" ∨ ev.eventType = "comment") ∧ st.first_response = none then
      if ev.actorLogin ≠ authorLogin then { st with first_response := ev.createdAt } else st
    else st
  let st2 :=
    if ev.eventType = "assigned" ∧ st1.assigned_at = none then
      { st1 with assigned_at := ev.createdAt }
    else st1
  if ev.eventType = "labeled" ∧ st2.labeled_at = none then
    { st2 with labeled_at := ev.createdAt }
  else st2

/-- Python's `round(x, 2)` on our rational model of floats. -/
def round2 (q : ℚ) : ℚ := (round (q * 100) : ℤ) / 100

/-- The output formatting `round(v, 2) if v else None` applied to the metric
variables: a Python float is falsy exactly when it equals `0.0`, so a computed
`0` is emitted as `None`. -/
def reportHours : Option ℚ → Option ℚ
  | none => none
  | some v => if v = 0 then none else some (round2 v)

/-- The metric-deriving slice of `analyze_issue_timing`: scan the events for
the anchors, compute `calculate_business_hours(created_at, anchor)` for each
present anchor, and format the two reported metrics
(`time_to_first_response_hours`, `time_to_assignment_hours`). -/
def analyze_issue_timing (created_at : Option Datetime) (authorLogin : String)
    (events : List TimelineEvent) : Option ℚ × Option ℚ :=
  let scan := events.foldl (scanStep authorLogin) ⟨none, none, none⟩
  let time_to_first_response :=
    scan.first_response.map (fun fr => calculate_business_hours created_at (some fr))
  let time_to_assignment :=
    scan.assigned_at.map (fun a => calculate_business_hours created_at (some a))
  (reportHours time_to_first_response, reportHours time_to_assignment)

/-! ### Metadata fallback estimator (scripts/estimate_pr_time_fallback.py) -/

/-- Lookup in one inner `{"Small": _, "Medium": _, "Large": _}` dictionary
with `.get(complexity, 6)` — the call-site default for an unrecognized
complexity is 6. -/
def complexityLookup (small medium large : ℚ) (complexity : String) : ℚ :=
  if complexity = "Small" then small
  else if complexity = "Medium" then medium
  else if complexity = "Large" then large
  else 6

/-- `DEFAULT_DEV_HOURS.get(category, DEFAULT_DEV_HOURS["Maintenance"])`: the
category table of scripts/estimate_pr_time_fallback.py, with `Maintenance`
(3/5/8) as the default bucket for an unrecognized category. -/
def DEFAULT_DEV_HOURS (category : String) : String → ℚ :=
  if category = "Feature" then complexityLookup 12 20 32
  else if category = "Bug_Fix" then complexityLookup 4 8 12
  else if category = "Enhancement" then complexityLookup 6 10 16
  else if category = "Infrastructure" then complexityLookup 4 8 16
  else if category = "Refactoring" then complexityLookup 8 12 20
  else if category = "Testing" then complexityLookup 6 12 24
  else if category = "UI_Enhancement" then complexityLookup 4 8 12
  else if category = "Documentation" then complexityLookup 2 4 8
  else if category = "Security" then complexityLookup 4 8 12
  else if category = "Performance" then complexityLookup 6 10 16
  else if category = "Database" then complexityLookup 6 10 16
  else if category = "Maintenance" then complexityLookup 3 5 8
  else if category = "Hotfix" then complexityLookup 4 6 10
  else if category = "Development" then complexityLookup 6 10 16
  else complexityLookup 3 5 8

/-- `needle` is a leading segment of `hay`. -/
def startsWithChars : List Char → List Char → Bool
  | [], _ => true
  | _ :: _, [] => false
  | a :: as, b :: bs => a = b && startsWithChars as bs

/-- Python's substring test `needle in hay` on character lists. -/
def containsSub : List Char → List Char → Bool
  | n, [] => n.isEmpty
  | n, c :: rest => startsWithChars n (c :: rest) || containsSub n rest

/-- Python's `title.lower()`, as a character list. -/
def lowerStr (s : String) : List Char := s.toList.map Char.toLower

/-- The six keyword adjustments of `estimate_time_from_metadata`, applied in
source order to the lowercased title (`multiplier *= …`). -/
def titleMultiplier (title : String) : ℚ :=
  let t := lowerStr title
  let m : ℚ := 1
  let m := if containsSub ("refactor".toList) t || containsSub ("restructure".toList) t
    then m * (12 / 10) else m
  let m := if containsSub ("test".toList) t || containsSub ("testing".toList) t
    then m * (11 / 10) else m
  let m := if containsSub ("fix".toList) t && !containsSub ("hotfix".toList) t
    then m * (9 / 10) else m
  let m := if containsSub ("update".toList) t || containsSub ("enhance".toList) t
    then m * (11 / 10) else m
  let m := if containsSub ("mvp".toList) t then m * (13 / 10) else m
  let m := if containsSub ("working".toList) t || containsSub ("mid".toList) t
    then m * (7 / 10) else m
  m

/-- The dictionary returned by `estimate_time_from_metadata`. -/
structure MetadataEstimate where
  estimated_hours : ℚ
  sessions : ℕ
  commits : ℤ
  method : String
  confidence : String
deriving DecidableEq

/-- `estimate_time_from_metadata` from scripts/estimate_pr_time_fallback.py:
base hours from the category/complexity table, times the keyword multiplier,
rounded to one decimal; sessions from the complexity; commits from the hours;
tagged `method="metadata_based"`, `confidence="low"`. -/
def estimate_time_from_metadata (category complexity title : String) : MetadataEstimate :=
  let base_hours := DEFAULT_DEV_HOURS category complexity
  let estimated_hours := round1 (base_hours * titleMultiplier title)
  let sessions : ℕ :=
    if complexity = "Small" then 1
    else if complexity = "Medium" then 2
    else if complexity = "Large" then 3
    else 1
  let estimated_commits : ℤ := max 1 (round (estimated_hours / 2))
  ⟨estimated_hours, sessions, estimated_commits, "metadata_based", "low"⟩

/-! ### Lemmas and claim theorems -/

lemma gapsOf_cons (a : ℚ) (l : List ℚ) :
    gapsOf (a :: l) = List.zipWith (fun x y => (y - x) / 60) (a :: l) l := by
  simp [gapsOf]

lemma commitLoop_eq (rest : List ℚ) : ∀ prev tm s,
    commitLoop prev tm s rest =
      (tm + ((gapsOf (prev :: rest)).map (fun g =>
          if g ≤ MAX_COMMIT_DIFF_MINUTES then g else FIRST_COMMIT_BUFFER_MINUTES)).sum,
       s + ((gapsOf (prev :: rest)).filter (fun g => MAX_COMMIT_DIFF_MINUTES < g)).length) := by
  induction rest with
  | nil => intro prev tm s; simp [commitLoop, gapsOf]
  | cons t r ih =>
    intro prev tm s
    rw [gapsOf_cons]
    simp only [List.zipWith, commitLoop]
    by_cases h : (t - prev) / 60 ≤ MAX_COMMIT_DIFF_MINUTES
    · rw [if_pos h, ih t]
      rw [gapsOf_cons]
      simp only [List.map_cons, List.sum_cons, List.filter]
      rw [if_pos h]
      have : ¬ MAX_COMMIT_DIFF_MINUTES < (t - prev) / 60 := not_lt.mpr h
      simp [this, add_assoc]
    · rw [if_neg h, ih t]
      rw [gapsOf_cons]
      simp only [List.map_cons, List.sum_cons, List.filter]
      rw [if_neg h]
      have : MAX_COMMIT_DIFF_MINUTES < (t - prev) / 60 := not_le.mp h
      simp [this, add_assoc, add_comm, decide_eq_true_eq]

lemma estimate_eq_specSession (commits : List ℚ) :
    estimate_time_from_commits commits = specSessionEstimate commits := by
  unfold estimate_time_from_commits specSessionEstimate
  by_cases he : commits.isEmpty
  · simp [he]
  · simp only [he, if_false]
    have hp := List.perm_insertionSort (· ≤ ·) commits
    have hne : List.insertionSort (· ≤ ·) commits ≠ [] := by
      intro h
      rw [h] at hp
      have := hp.symm.eq_nil
      rw [List.isEmpty_iff] at he
      exact he this
    cases hs : List.insertionSort (· ≤ ·) commits with
    | nil => exact absurd hs hne
    | cons t0 rest =>
      simp only [commitLoop_eq rest t0 FIRST_COMMIT_BUFFER_MINUTES 1]

/-- C1: the commit-session estimator follows the specified algorithm:
sort ascending; a non-empty list starts with one startup buffer and one
session; each small consecutive gap adds the gap, each oversized gap adds a
session and another buffer; hours are `round(totalMinutes/60, 1)`; the empty
list yields all zeros. -/
theorem commit_estimator_follows_spec (commits : List ℚ) :
    estimate_time_from_commits commits = specSessionEstimate commits :=
  estimate_eq_specSession commits

/-- C9: the commit-session estimator is order independent — any permutation of
the commit timestamp list yields the same result, because the list is sorted
ascending before clustering. -/
theorem commit_estimator_order_independent (l l' : List ℚ) (h : l.Perm l') :
    estimate_time_from_commits l = estimate_time_from_commits l' := by
  have hsort : List.insertionSort (· ≤ ·) l = List.insertionSort (· ≤ ·) l' :=
    List.eq_of_perm_of_sorted
      ((List.perm_insertionSort _ l).trans (h.trans (List.perm_insertionSort _ l').symm))
      (List.sorted_insertionSort _ l) (List.sorted_insertionSort _ l')
  have hlen : l.length = l'.length := h.length_eq
  have hie : l.isEmpty = l'.isEmpty := by
    rcases l with _ | ⟨a, t⟩
    · rcases l' with _ | ⟨b, t'⟩
      · rfl
      · exact absurd h.length_eq (by simp)
    · rcases l' with _ | ⟨b, t'⟩
      · exact absurd h.length_eq (by simp)
      · rfl
  unfold estimate_time_from_commits
  rw [hsort, hlen, hie]

/-- Witness for C9 at the concrete permutation `[0, 1800] ~ [1800, 0]`. -/
theorem commit_estimator_order_independent_witness :
    ([(0 : ℚ), 1800]).Perm [1800, 0] ∧
    estimate_time_from_commits [(0 : ℚ), 1800] = estimate_time_from_commits [1800, 0] :=
  ⟨by decide, commit_estimator_order_independent _ _ (by decide)⟩

/-- C10: on a non-empty commit list the session count is at least 1 and at most
the reported commit count (each extra session needs a distinct oversized gap
between consecutive commits). -/
theorem commit_sessions_bounds (commits : List ℚ) (h : commits ≠ []) :
    1 ≤ (estimate_time_from_commits commits).sessions ∧
    (estimate_time_from_commits commits).sessions ≤ (estimate_time_from_commits commits).commits := by
  have he : commits.isEmpty = false := by simpa [List.isEmpty_iff] using h
  have hlen1 : 1 ≤ commits.length := by
    cases commits with
    | nil => exact absurd rfl h
    | cons a t => simp
  have hcount : ((gapsOf (List.insertionSort (· ≤ ·) commits)).filter
      (fun g => MAX_COMMIT_DIFF_MINUTES < g)).length ≤ commits.length - 1 := by
    calc ((gapsOf (List.insertionSort (· ≤ ·) commits)).filter
          (fun g => MAX_COMMIT_DIFF_MINUTES < g)).length
        ≤ (gapsOf (List.insertionSort (· ≤ ·) commits)).length := List.length_filter_le _ _
      _ ≤ commits.length - 1 := by
          simp only [gapsOf, List.length_zipWith, List.length_tail, List.length_insertionSort]
          omega
  rw [estimate_eq_specSession]
  simp only [specSessionEstimate, he, Bool.false_eq_true, if_false]
  refine ⟨Nat.le_add_right 1 _, ?_⟩
  omega

/-- Witness for C10 at the singleton commit list `[0]`. -/
theorem commit_sessions_bounds_witness :
    ([(0 : ℚ)] ≠ []) ∧
    (1 ≤ (estimate_time_from_commits [(0 : ℚ)]).sessions ∧
     (estimate_time_from_commits [(0 : ℚ)]).sessions ≤ (estimate_time_from_commits [(0 : ℚ)]).commits) :=
  ⟨by decide, commit_sessions_bounds [0] (by decide)⟩


lemma calcLoop_eq_sum (s e : Datetime) : ∀ (n : ℕ) (cur : Datetime),
    calcLoop s e n cur =
      ∑ k ∈ Finset.range n, dayHours s e (if k = 0 then cur else ⟨cur.day + k, 0⟩) := by
  intro n
  induction n with
  | zero => intro cur; simp [calcLoop]
  | succ m ih =>
    intro cur
    have hsum : ∑ k ∈ Finset.range m,
          dayHours s e (if k = 0 then (⟨cur.day + 1, 0⟩ : Datetime) else ⟨cur.day + 1 + (k : ℤ), 0⟩)
        = ∑ k ∈ Finset.range m,
          dayHours s e (if k + 1 = 0 then cur else ⟨cur.day + ((k + 1 : ℕ) : ℤ), 0⟩) := by
      apply Finset.sum_congr rfl
      intro k _
      by_cases hk : k = 0
      · subst hk; norm_num
      · rw [if_neg hk, if_neg (by omega)]
        congr 2
        push_cast
        ring
    rw [calcLoop, ih ⟨cur.day + 1, 0⟩, Finset.sum_range_succ', hsum, add_comm]
    congr 1

/-- `calculate_business_hours` decomposes into per-day contributions when the
arguments are already in order. -/
lemma calc_eq_daySum (s e : Datetime) (h : toSecs s ≤ toSecs e) :
    calculate_business_hours (some s) (some e) =
      ∑ k ∈ Finset.range (e.day - s.day + 1).toNat, dayContribution s e (s.day + k) := by
  have hswap : calculate_business_hours (some s) (some e)
      = calcLoop s e (e.day - s.day + 1).toNat s := by
    show (let p := if toSecs s > toSecs e then (e, s) else (s, e);
      calcLoop p.1 p.2 (p.2.day - p.1.day + 1).toNat p.1)
      = calcLoop s e (e.day - s.day + 1).toNat s
    rw [if_neg (not_lt.mpr h)]
  rw [hswap, calcLoop_eq_sum]
  apply Finset.sum_congr rfl
  intro k _
  unfold dayContribution
  by_cases hk : k = 0
  · subst hk; simp
  · rw [if_neg hk, if_neg (by omega)]

/-- Variant of `calc_eq_daySum` with the day count given as a numeral, for
concrete evaluations. -/
lemma calc_eq_daySum_of (s e : Datetime) (h : toSecs s ≤ toSecs e) (n : ℕ)
    (hn : (e.day - s.day + 1).toNat = n) :
    calculate_business_hours (some s) (some e) =
      ∑ k ∈ Finset.range n, dayContribution s e (s.day + k) := by
  rw [calc_eq_daySum s e h, hn]

/-- C2 counterexample: for start Mon 10:00 and end Tue 20:00 the code returns
21 hours (Tuesday is cut off at 19:00), while the claim's per-day windows —
which extend Tuesday's window because `end` falls after 19:00 — sum to 22. -/
theorem business_window_claim_counterexample :
    calculate_business_hours (some ⟨0, 36000⟩) (some ⟨1, 72000⟩) = 21 ∧
    (∑ k ∈ Finset.range 2, claimC2Window ⟨0, 36000⟩ ⟨1, 72000⟩ (0 + k)) = 22 ∧
    (21 : ℚ) ≠ 22 := by
  refine ⟨?_, ?_, by norm_num⟩
  · rw [calc_eq_daySum_of _ _ (by norm_num [toSecs]) 2 (by decide)]
    rw [Finset.sum_range_succ, Finset.sum_range_one]
    norm_num [dayContribution, dayHours, get_business_hours_in_day, is_business_day,
      weekday, hourOf, toSecs]
  · rw [Finset.sum_range_succ, Finset.sum_range_one]
    norm_num [claimC2Window, hourOf, toSecs]

/-- C2 as amended: the total decomposes into per-day contributions, and on
business days the contribution is the clamped `[7:00, 19:00)` window whose end
extends to `23:59:59.999999` only when the day is the first day and `start`
falls at or after 19:00 — late work at the `end` boundary is not captured. -/
theorem business_day_window_amended (s e : Datetime) (h : toSecs s ≤ toSecs e) :
    calculate_business_hours (some s) (some e) =
      (∑ k ∈ Finset.range (e.day - s.day + 1).toNat, dayContribution s e (s.day + k)) ∧
    ∀ d : ℤ, weekday d < 5 →
      dayContribution s e d = amendedBusinessWindow s e d := by
  refine ⟨calc_eq_daySum s e h, ?_⟩
  intro d hd
  unfold dayContribution dayHours amendedBusinessWindow get_business_hours_in_day
  by_cases hds : d = s.day
  · rw [if_pos hds]
    simp only [is_business_day, toSecs]
    rw [← hds]
    simp only [hd, decide_True, if_true, if_pos rfl, true_and]
  · rw [if_neg hds]
    simp only [is_business_day, toSecs]
    have h0 : hourOf (⟨d, 0⟩ : Datetime) = 0 := by
      simp [hourOf]
    simp only [h0, hd, decide_True, if_true, if_neg hds]
    norm_num [hds]

/-- Witness for the amended C2 at start Mon 10:00, end Tue 20:00. -/
theorem business_day_window_amended_witness :
    toSecs ⟨0, 36000⟩ ≤ toSecs ⟨1, 72000⟩ ∧
    (calculate_business_hours (some ⟨0, 36000⟩) (some ⟨1, 72000⟩) =
      (∑ k ∈ Finset.range (((⟨1, 72000⟩ : Datetime).day - (⟨0, 36000⟩ : Datetime).day + 1).toNat),
        dayContribution ⟨0, 36000⟩ ⟨1, 72000⟩ ((⟨0, 36000⟩ : Datetime).day + k)) ∧
     ∀ d : ℤ, weekday d < 5 →
       dayContribution ⟨0, 36000⟩ ⟨1, 72000⟩ d = amendedBusinessWindow ⟨0, 36000⟩ ⟨1, 72000⟩ d) :=
  ⟨by norm_num [toSecs], business_day_window_amended _ _ (by norm_num [toSecs])⟩

/-- C4 counterexample: for `t` = Saturday 10:00 the calculator returns the flat
weekend credit 4 on the pair `(t, t)`, not 0 as the claim states for every
instant. -/
theorem calc_same_instant_counterexample :
    calculate_business_hours (some ⟨5, 36000⟩) (some ⟨5, 36000⟩) = 4 ∧ (4 : ℚ) ≠ 0 := by
  refine ⟨?_, by norm_num⟩
  rw [calc_eq_daySum_of _ _ le_rfl 1 (by decide)]
  rw [Finset.sum_range_one]
  norm_num [dayContribution, dayHours, get_business_hours_in_day, is_business_day,
    weekday, hourOf, toSecs]

/-- C4 as amended: on a pair of equal instants the calculator returns 0 when
the instant falls on a business day but the flat weekend credit 4 when it
falls on a weekend; a missing input on either side yields 0. -/
theorem calc_degenerate_cases :
    (∀ t : Datetime, calculate_business_hours (some t) (some t) =
        if is_business_day t then 0 else 4) ∧
    (∀ x : Option Datetime, calculate_business_hours none x = 0) ∧
    (∀ x : Option Datetime, calculate_business_hours x none = 0) := by
  refine ⟨?_, ?_, ?_⟩
  · intro t
    rw [calc_eq_daySum_of t t le_rfl 1 (by omega)]
    rw [Finset.sum_range_one]
    unfold dayContribution dayHours
    norm_num
  · intro x
    cases x <;> rfl
  · intro x
    cases x <;> rfl

/-- C5: for ordered instants the total decomposes into per-day contributions,
and a weekend day contributes the flat credit 4 exactly when it is the start
or end date, and 0 otherwise — regardless of the time span within that day. -/
theorem weekend_day_contribution (s e : Datetime) (h : toSecs s ≤ toSecs e) :
    calculate_business_hours (some s) (some e) =
      (∑ k ∈ Finset.range (e.day - s.day + 1).toNat, dayContribution s e (s.day + k)) ∧
    ∀ d : ℤ, ¬ weekday d < 5 →
      dayContribution s e d = if d = s.day ∨ d = e.day then 4 else 0 := by
  refine ⟨calc_eq_daySum s e h, ?_⟩
  intro d hd
  unfold dayContribution dayHours
  have hcur : (if d = s.day then s else (⟨d, 0⟩ : Datetime)).day = d := by
    by_cases hds : d = s.day
    · rw [if_pos hds, hds]
    · rw [if_neg hds]
  simp only [is_business_day, hcur, decide_eq_true_eq]
  rw [if_neg hd]

/-- Witness for C5 at start Saturday 10:00 (day 5), end Monday 10:00 (day 7). -/
theorem weekend_day_contribution_witness :
    toSecs ⟨5, 36000⟩ ≤ toSecs ⟨7, 36000⟩ ∧
    (calculate_business_hours (some ⟨5, 36000⟩) (some ⟨7, 36000⟩) =
      (∑ k ∈ Finset.range (((⟨7, 36000⟩ : Datetime).day - (⟨5, 36000⟩ : Datetime).day + 1).toNat),
        dayContribution ⟨5, 36000⟩ ⟨7, 36000⟩ ((⟨5, 36000⟩ : Datetime).day + k)) ∧
     ∀ d : ℤ, ¬ weekday d < 5 →
       dayContribution ⟨5, 36000⟩ ⟨7, 36000⟩ d =
         if d = (⟨5, 36000⟩ : Datetime).day ∨ d = (⟨7, 36000⟩ : Datetime).day then 4 else 0) :=
  ⟨by norm_num [toSecs], weekend_day_contribution _ _ (by norm_num [toSecs])⟩

/-- C6 counterexample: `BusinessHoursCalculator(Fri 18:00, Mon 08:00)` returns
2.0, not the 7.0 the claim asserts (Friday's window does not extend past 19:00
because 18:00 is before 19:00). -/
theorem fri_to_mon_claim_counterexample :
    calculate_business_hours (some ⟨4, 64800⟩) (some ⟨7, 28800⟩) = 2 ∧ (2 : ℚ) ≠ 7 := by
  refine ⟨?_, by norm_num⟩
  rw [calc_eq_daySum_of _ _ (by norm_num [toSecs]) 4 (by decide)]
  rw [Finset.sum_range_succ, Finset.sum_range_succ, Finset.sum_range_succ, Finset.sum_range_one]
  norm_num [dayContribution, dayHours, get_business_hours_in_day, is_business_day,
    weekday, hourOf, toSecs]

/-- C6 as amended: on Fri 18:00 → Mon 08:00 Friday contributes 1 hour
(18:00–19:00 — no extension, since 18:00 is before 19:00), Saturday and Sunday
contribute 0 (they are not boundary days), Monday contributes the partial
morning window 07:00–08:00, and the total is 2.0. -/
theorem fri_to_mon_amended :
    dayContribution ⟨4, 64800⟩ ⟨7, 28800⟩ 4 = 1 ∧
    dayContribution ⟨4, 64800⟩ ⟨7, 28800⟩ 5 = 0 ∧
    dayContribution ⟨4, 64800⟩ ⟨7, 28800⟩ 6 = 0 ∧
    dayContribution ⟨4, 64800⟩ ⟨7, 28800⟩ 7 = 1 ∧
    calculate_business_hours (some ⟨4, 64800⟩) (some ⟨7, 28800⟩) = 2 := by
  refine ⟨?_, ?_, ?_, ?_, ?_⟩
  · norm_num [dayContribution, dayHours, get_business_hours_in_day, is_business_day,
      weekday, hourOf, toSecs]
  · norm_num [dayContribution, dayHours, get_business_hours_in_day, is_business_day,
      weekday, hourOf, toSecs]
  · norm_num [dayContribution, dayHours, get_business_hours_in_day, is_business_day,
      weekday, hourOf, toSecs]
  · norm_num [dayContribution, dayHours, get_business_hours_in_day, is_business_day,
      weekday, hourOf, toSecs]
  · rw [calc_eq_daySum_of _ _ (by norm_num [toSecs]) 4 (by decide)]
    rw [Finset.sum_range_succ, Finset.sum_range_succ, Finset.sum_range_succ, Finset.sum_range_one]
    norm_num [dayContribution, dayHours, get_business_hours_in_day, is_business_day,
      weekday, hourOf, toSecs]

/-- C3 (code bug witnessed): for an issue created Mon 10:00 whose first
qualifying response (a comment by a different user) arrives at that same
instant, the event scan does find the response, the business-hours metric
computes to exactly 0, and yet the reported `time_to_first_response_hours` is
`None`: the output line `round(v, 2) if v else None` treats the float `0.0` as
falsy, so a computed 0 is reported as absent, contradicting the absent-vs-zero
contract. -/
theorem first_response_zero_reported_absent :
    (([⟨"commented", "bob", some ⟨0, 36000⟩⟩] : List TimelineEvent).foldl
        (scanStep ("alice")) ⟨none, none, none⟩).first_response = some ⟨0, 36000⟩ ∧
    calculate_business_hours (some ⟨0, 36000⟩) (some ⟨0, 36000⟩) = 0 ∧
    (analyze_issue_timing (some ⟨0, 36000⟩) ("alice")
        [⟨"commented", "bob", some ⟨0, 36000⟩⟩]).1 = none := by
  have h0 : calculate_business_hours (some ⟨0, 36000⟩) (some ⟨0, 36000⟩) = 0 := by
    rw [calc_eq_daySum_of _ _ le_rfl 1 (by decide), Finset.sum_range_one]
    norm_num [dayContribution, dayHours, get_business_hours_in_day, is_business_day,
      weekday, hourOf, toSecs]
  refine ⟨by simp [scanStep], h0, ?_⟩
  simp [analyze_issue_timing, scanStep, reportHours, h0]

/-- C7: the metadata fallback estimator's hours are exactly the
category/complexity lookup (with `Maintenance` as default category and 6 as
default complexity hours) times the six compounding keyword multipliers,
rounded to one decimal; in particular `("Bug_Fix", "Small", "Hotfix: fix
login")` yields 4.0 because the presence of "hotfix" suppresses the 0.9 "fix"
multiplier. -/
theorem metadata_hours_spec :
    (∀ category complexity title : String,
      (estimate_time_from_metadata category complexity title).estimated_hours =
        round1 (DEFAULT_DEV_HOURS category complexity * titleMultiplier title)) ∧
    (estimate_time_from_metadata ("Bug_Fix") ("Small") ("Hotfix: fix login")).estimated_hours
      = 4 := by
  refine ⟨fun category complexity title => rfl, ?_⟩
  have hbase : DEFAULT_DEV_HOURS ("Bug_Fix") ("Small") = 4 := by decide
  have hmul : titleMultiplier ("Hotfix: fix login") = 1 := by decide
  have : (estimate_time_from_metadata ("Bug_Fix") ("Small") ("Hotfix: fix login")).estimated_hours
      = round1 (DEFAULT_DEV_HOURS ("Bug_Fix") ("Small") * titleMultiplier ("Hotfix: fix login")) :=
    rfl
  rw [this, hbase, hmul]
  norm_num [round1, round_eq]

/-- C8 counterexample: the estimator's provenance tag is the literal string
`"metadata_based"`, not `"metadata"` as the claim states. -/
theorem metadata_method_tag_counterexample :
    (estimate_time_from_metadata ("Feature") ("Small") ("x")).method ≠ "metadata" := by
  decide

/-- C8 as amended: every result of the metadata fallback estimator is tagged
`method="metadata_based"` and `confidence="low"`, so callers can distinguish
its provenance from commit-based estimates. -/
theorem metadata_provenance_tags (category complexity title : String) :
    (estimate_time_from_metadata category complexity title).method = "metadata_based" ∧
    (estimate_time_from_metadata category complexity title).confidence = "low" :=
  ⟨rfl, rfl⟩
